import Mathlib

/-!
Verification of the MFL rewrite's integration layer: the roster
cross-reference/projection logic (src/app/dashboard/[leagueId]/page.tsx,
src/app/league/[id]/page.tsx, src/app/dashboard/[year]/[leagueId]/page.tsx),
the file-backed reference cache (CacheManager), and the upstream API client
(MFLApiClient: makeRequest / login, as recorded in the repository's design
document, the implementation file itself not being part of the shipped tree).

Modelling conventions:
- JavaScript numbers are modelled by ℚ, with an explicit `nan` constructor
  for `NaN` (`JsNum`).  IEEE rounding is not modelled; none of the verified
  claims depends on rounding, only on which entries feed which aggregate.
- JavaScript truthiness is modelled field-by-field (`none`/`NaN`/`0`/`""`
  are falsy).
- `parseFloat` / `parseInt` are modelled as longest-valid-prefix decimal
  parsers into ℚ (`parseFloatJs`, `parseIntJs`); the `Infinity` literal is
  not modelled (salary / contract strings are decimal).
-/

/-- A JavaScript number: either `NaN` or a rational value. -/
inductive JsNum where
  | nan : JsNum
  | val : ℚ → JsNum
deriving DecidableEq, Repr

/-- Truthiness of an optional string field (`undefined` and `""` are falsy). -/
def optStrTruthy : Option String → Bool
  | none => false
  | some s => s ≠ ""

/-- Truthiness of an optional number field (`undefined`, `NaN` and `0` are falsy). -/
def jsNumTruthy : Option JsNum → Bool
  | some (.val q) => q ≠ 0
  | _ => false

/-- Value used by `x || 0` on an optional number field: a truthy number keeps
its value, everything else (absent, `NaN`, `0`) contributes `0`. -/
def jsNumOrZero : Option JsNum → ℚ
  | some (.val q) => q
  | _ => 0

/-- Fallback `x || d` on an optional string (`playerInfo?.name || 'Unknown Player'`):
an absent or empty string falls back to the default. -/
def jsOrStr (o : Option String) (d : String) : String :=
  match o with
  | some s => if s = "" then d else s
  | none => d

/-- Optional sign character; returns (negative?, rest). -/
def parseSign : List Char → Bool × List Char
  | '-' :: cs => (true, cs)
  | '+' :: cs => (false, cs)
  | cs => (false, cs)

/-- Numeric value of a digit list in a given base. -/
def digitsVal (base : Nat) (ds : List Char) : Nat :=
  ds.foldl (fun n c =>
    base * n + (if c.isDigit then c.toNat - 48
                else if 'a' ≤ c ∧ c ≤ 'f' then c.toNat - 87
                else if 'A' ≤ c ∧ c ≤ 'F' then c.toNat - 55
                else 0)) 0

/-- Hexadecimal digit test (for `parseInt`'s automatic `0x` radix). -/
def isHexDigitCh (c : Char) : Bool :=
  c.isDigit ∨ ('a' ≤ c ∧ c ≤ 'f') ∨ ('A' ≤ c ∧ c ≤ 'F')

/-- JavaScript `parseFloat`: skip leading whitespace, optional sign, decimal
digits with optional fraction and optional exponent; `NaN` when no digit is
found.  Longest-valid-prefix semantics: trailing garbage is ignored, and an
exponent marker without digits is not consumed. -/
def parseFloatJs (s : String) : JsNum :=
  let cs := s.data.dropWhile Char.isWhitespace
  let sg := parseSign cs
  let cs0 := sg.2
  let ip := cs0.takeWhile Char.isDigit
  let cs1 := cs0.drop ip.length
  let fp := match cs1 with
    | '.' :: rest => rest.takeWhile Char.isDigit
    | _ => []
  let cs2 := match cs1 with
    | '.' :: rest => rest.drop fp.length
    | _ => cs1
  if ip.isEmpty ∧ fp.isEmpty then .nan
  else
    let mant : ℚ := (digitsVal 10 ip : ℚ) + (digitsVal 10 fp : ℚ) / ((10 : ℚ) ^ fp.length)
    let expo : Int := match cs2 with
      | e :: rest =>
        if e = 'e' ∨ e = 'E' then
          let esg := parseSign rest
          let eds := esg.2.takeWhile Char.isDigit
          if eds.isEmpty then 0
          else if esg.1 then -(digitsVal 10 eds : Int) else (digitsVal 10 eds : Int)
        else 0
      | [] => 0
    let v : ℚ := mant * (10 : ℚ) ^ expo
    .val (if sg.1 then -v else v)

/-- JavaScript `parseInt` with no radix argument: skip whitespace, optional
sign, automatic base 16 on a `0x`/`0X` prefix, otherwise base 10; `NaN` when
no digit follows. -/
def parseIntJs (s : String) : JsNum :=
  let cs := s.data.dropWhile Char.isWhitespace
  let sg := parseSign cs
  let ds := match sg.2 with
    | '0' :: c :: rest =>
      if c = 'x' ∨ c = 'X' then rest.takeWhile isHexDigitCh
      else sg.2.takeWhile Char.isDigit
    | _ => sg.2.takeWhile Char.isDigit
  let base : Nat := match sg.2 with
    | '0' :: c :: _ => if c = 'x' ∨ c = 'X' then 16 else 10
    | _ => 10
  if ds.isEmpty then .nan
  else
    let n : Int := digitsVal base ds
    .val (if sg.1 then (-n : Int) else n)

/-! ## Roster projector (src/app/dashboard/[leagueId]/page.tsx, loadPlayerData) -/

/-- Raw roster entry from the upstream rosters response
(`MFLRosterResponse` in src/lib/types.ts): a player id plus loosely typed
optional status / salary / contract strings. -/
structure RawRosterPlayer where
  id : String
  status : Option String
  salary : Option String
  contractYear : Option String
  contractStatus : Option String
deriving DecidableEq, Repr

/-- An entry of the cached player directory (`data` of players.json), with
the four string fields the projector reads. -/
structure PlayerRecord where
  id : String
  name : String
  position : String
  team : String
deriving DecidableEq, Repr

/-- Roster bucket of a projected player. -/
inductive RosterStatus where
  | active : RosterStatus
  | ir : RosterStatus
  | taxi : RosterStatus
deriving DecidableEq, Repr

/-- A processed (projected) roster player, as built by `loadPlayerData`. -/
structure ProcessedPlayer where
  id : String
  name : String
  position : String
  team : String
  rosterStatus : RosterStatus
  salary : Option JsNum
  contractYears : Option JsNum
  contractStatus : Option String
deriving DecidableEq, Repr

/-- The per-entry cross-reference step of `loadPlayerData` (lines 109-131):
look the id up in the player database, fall back to the sentinel fields via
`||`, classify the roster status, and parse the optional salary / contract
fields (a falsy raw string yields `undefined`). -/
def processRosterPlayer (playerDatabase : List PlayerRecord) (r : RawRosterPlayer) :
    ProcessedPlayer :=
  let playerInfo := playerDatabase.find? (fun p => p.id = r.id)
  let rosterStatus : RosterStatus :=
    if r.status = some "TAXI_SQUAD" then .taxi
    else if r.status = some "INJURED_RESERVE" ∨ r.status = some "IR" then .ir
    else .active
  { id := r.id
    name := jsOrStr (playerInfo.map (·.name)) "Unknown Player"
    position := jsOrStr (playerInfo.map (·.position)) "UNK"
    team := jsOrStr (playerInfo.map (·.team)) "FA"
    rosterStatus := rosterStatus
    salary := match r.salary with
      | some s => if s ≠ "" then some (parseFloatJs s) else none
      | none => none
    contractYears := match r.contractYear with
      | some s => if s ≠ "" then some (parseIntJs s) else none
      | none => none
    contractStatus := match r.contractStatus with
      | some s => if s ≠ "" then some s else none
      | none => none }

/-- `processedPlayers`: the roster projection (`rosterPlayers.map(...)`). -/
def processedPlayers (rosterPlayers : List RawRosterPlayer)
    (playerDatabase : List PlayerRecord) : List ProcessedPlayer :=
  rosterPlayers.map (processRosterPlayer playerDatabase)

/-- Bucket membership tests used by the three `filter` calls. -/
def isActiveP (p : ProcessedPlayer) : Bool := p.rosterStatus = RosterStatus.active

def isIrP (p : ProcessedPlayer) : Bool := p.rosterStatus = RosterStatus.ir

def isTaxiP (p : ProcessedPlayer) : Bool := p.rosterStatus = RosterStatus.taxi

/-- `activeRoster = processedPlayers.filter(p => p.rosterStatus === 'active')`. -/
def activeRoster (raw : List RawRosterPlayer) (db : List PlayerRecord) : List ProcessedPlayer :=
  (processedPlayers raw db).filter isActiveP

/-- `irRoster = processedPlayers.filter(p => p.rosterStatus === 'ir')`. -/
def irRoster (raw : List RawRosterPlayer) (db : List PlayerRecord) : List ProcessedPlayer :=
  (processedPlayers raw db).filter isIrP

/-- `taxiRoster = processedPlayers.filter(p => p.rosterStatus === 'taxi')`. -/
def taxiRoster (raw : List RawRosterPlayer) (db : List PlayerRecord) : List ProcessedPlayer :=
  (processedPlayers raw db).filter isTaxiP

/-- `positionOrder = ['QB', 'RB', 'WR', 'TE', 'K', 'DEF']`. -/
def positionOrder : List String := ["QB", "RB", "WR", "TE", "K", "DEF"]

/-- `positionOrder.indexOf(pos)` mapped through `idx === -1 ? 999 : idx`. -/
def posRank (pos : String) : Nat :=
  match positionOrder.findIdx? (· = pos) with
  | some i => i
  | none => 999

/-- The sort comparator of `sortByPosition` read as a boolean "less or equal":
`cmp(a,b) <= 0` where `cmp` compares position ranks and falls back to a name
comparison (`localeCompare`, modelled by the codepoint order on strings). -/
def playerLE (a b : ProcessedPlayer) : Bool :=
  decide (posRank a.position < posRank b.position ∨
    (posRank a.position = posRank b.position ∧ a.name ≤ b.name))

/-- `sortByPosition`: stable sort by the comparator above (JavaScript
`Array.prototype.sort` is stable, modelled by `List.mergeSort`). -/
def sortByPosition (players : List ProcessedPlayer) : List ProcessedPlayer :=
  players.mergeSort playerLE

/-- `sortedActiveRoster = sortByPosition([...activeRoster])`. -/
def sortedActiveRoster (raw : List RawRosterPlayer) (db : List PlayerRecord) :
    List ProcessedPlayer :=
  sortByPosition (activeRoster raw db)

/-- `sortedIrRoster = sortByPosition([...irRoster])`. -/
def sortedIrRoster (raw : List RawRosterPlayer) (db : List PlayerRecord) :
    List ProcessedPlayer :=
  sortByPosition (irRoster raw db)

/-- `sortedTaxiRoster = sortByPosition([...taxiRoster])`. -/
def sortedTaxiRoster (raw : List RawRosterPlayer) (db : List PlayerRecord) :
    List ProcessedPlayer :=
  sortByPosition (taxiRoster raw db)

/-- `totalContractYears = sortedActiveRoster.reduce((sum, p) => sum + (p.contractYears || 0), 0)`. -/
def totalContractYears (raw : List RawRosterPlayer) (db : List PlayerRecord) : ℚ :=
  (sortedActiveRoster raw db).foldl (fun sum p => sum + jsNumOrZero p.contractYears) 0

/-- `totalSalary = sortedActiveRoster.reduce((sum, p) => sum + (p.salary || 0), 0)`. -/
def totalSalary (raw : List RawRosterPlayer) (db : List PlayerRecord) : ℚ :=
  (sortedActiveRoster raw db).foldl (fun sum p => sum + jsNumOrZero p.salary) 0

/-- Predicate of `hasContracts` (`p.contractYears || p.contractStatus` truthy). -/
def hasContractData (p : ProcessedPlayer) : Bool :=
  jsNumTruthy p.contractYears || optStrTruthy p.contractStatus

/-- Predicate of `hasSalaries` (`p.salary` truthy). -/
def hasSalaryData (p : ProcessedPlayer) : Bool :=
  jsNumTruthy p.salary

/-- `hasContracts` at src/app/dashboard/[leagueId]/page.tsx line 134:
`processedPlayers.some(p => p.contractYears || p.contractStatus)` — computed
over ALL processed players, before bucketing. -/
def hasContractsDashboard (raw : List RawRosterPlayer) (db : List PlayerRecord) : Bool :=
  (processedPlayers raw db).any hasContractData

/-- `hasSalaries` at src/app/dashboard/[leagueId]/page.tsx line 135:
`processedPlayers.some(p => p.salary)` — computed over ALL processed players. -/
def hasSalariesDashboard (raw : List RawRosterPlayer) (db : List PlayerRecord) : Bool :=
  (processedPlayers raw db).any hasSalaryData

/-- `hasContracts` at src/app/league/[id]/page.tsx line 538 and
src/app/dashboard/[year]/[leagueId]/page.tsx line 654:
`activeRoster.some(p => p.contractYears || p.contractStatus)`. -/
def hasContractsLeague (raw : List RawRosterPlayer) (db : List PlayerRecord) : Bool :=
  (activeRoster raw db).any hasContractData

/-- `hasSalaries` at src/app/league/[id]/page.tsx line 539 and
src/app/dashboard/[year]/[leagueId]/page.tsx line 655:
`activeRoster.some(p => p.salary)`. -/
def hasSalariesLeague (raw : List RawRosterPlayer) (db : List PlayerRecord) : Bool :=
  (activeRoster raw db).any hasSalaryData

/-! ## Reference cache (src/unnamed/part_006, CacheManager) -/

/-- A parsed JSON value.  Numeric values are modelled as integers: the only
numbers the cache manager inspects are unix-second timestamps
(`metadata.lastUpdated`, typed `number` in src/lib/types.ts). -/
inductive Json where
  | null : Json
  | bool : Bool → Json
  | num : Int → Json
  | str : String → Json
  | arr : List Json → Json
  | obj : List (String × Json) → Json

/-- JavaScript property access `j.k` on a parsed JSON value: defined on
objects (`JSON.parse` keeps the last of duplicate keys), `undefined` (`none`)
on everything else.  (Property access on `null` throws in JavaScript; the
cache read path turns any such throw into the same hard failure, so it is
modelled as an absent field.) -/
def jsGetField : Json → String → Option Json
  | .obj fields, k => (fields.reverse).lookup k
  | _, _ => none

/-- JavaScript truthiness of a JSON value. -/
def Json.truthy : Json → Bool
  | .null => false
  | .bool b => b
  | .num n => n ≠ 0
  | .str s => s ≠ ""
  | .arr _ => true
  | .obj _ => true

/-- Truthiness of an optional JSON value (`undefined` is falsy). -/
def optJsonTruthy : Option Json → Bool
  | none => false
  | some j => j.truthy

/-- The state of a collection's backing file as the cache manager sees it. -/
inductive CacheFile where
  | missing : CacheFile
  | malformed : CacheFile
  | parsed : Json → CacheFile

/-- `CacheManager.readCacheFile` applied to an already-parsed document:
`if (!parsed.metadata || !parsed.data) throw new Error('Invalid cache file
structure: missing metadata or data')`. -/
def readCacheFile (parsed : Json) : Except String Json :=
  if optJsonTruthy (jsGetField parsed "metadata") && optJsonTruthy (jsGetField parsed "data") then
    .ok parsed
  else
    .error "Invalid cache file structure: missing metadata or data"

/-- The message of the error `getCachedData` rethrows:
`Failed to load cached data from ${fileName}: ${error.message}`. -/
def cacheLoadError (fileName msg : String) : String :=
  "Failed to load cached data from " ++ fileName ++ ": " ++ msg

/-- `Array.prototype.filter` with a fallible callback: items are tested left
to right and the first throw aborts the whole filter. -/
def filterExc (validator : Json → Except String Bool) :
    List Json → Except String (List Json)
  | [] => .ok []
  | j :: rest =>
    match validator j with
    | .error m => .error m
    | .ok b =>
      match filterExc validator rest with
      | .error m => .error m
      | .ok l => .ok (if b then j :: l else l)

/-- `CacheManager.getCachedData`: consult the in-memory layer first; then a
missing file, malformed JSON (`JSON.parse` throwing — the dynamic
`SyntaxError` detail of the message is not modelled), or a structurally
invalid envelope is a hard failure naming the collection file; a valid
envelope has its items filtered by the per-collection validator, and a
throw from the validator itself is caught and wrapped into the same hard
failure. -/
def getCachedData (memory : Option (List Json)) (file : CacheFile) (fileName : String)
    (validator : Json → Except String Bool) : Except String (List Json) :=
  match memory with
  | some items => .ok items
  | none =>
    match file with
    | .missing => .error (cacheLoadError fileName ("Cache file not found: " ++ fileName))
    | .malformed => .error (cacheLoadError fileName "Invalid JSON in cache file")
    | .parsed j =>
      match readCacheFile j with
      | .error msg => .error (cacheLoadError fileName msg)
      | .ok cachedData =>
        match jsGetField cachedData "data" with
        | some (.arr items) =>
          match filterExc validator items with
          | .ok validItems => .ok validItems
          | .error msg => .error (cacheLoadError fileName msg)
        | _ =>
          .error (cacheLoadError fileName
            ("Invalid cache structure in " ++ fileName ++ ": data is not an array"))

/-- JavaScript `String.prototype.trim`: strip whitespace from both ends. -/
def jsTrim (s : String) : String :=
  String.mk (((s.data.dropWhile Char.isWhitespace).reverse.dropWhile Char.isWhitespace).reverse)

/-- The pure content of the player validator on non-null values: an object
whose `id`, `name`, `position`, `team` are strings that are non-empty after
trimming; any other non-null value fails the `typeof` checks without
throwing (property access on a non-null non-object yields `undefined`). -/
def playerFieldsValid (player : Json) : Bool :=
  match player with
  | .obj fields =>
    match (fields.reverse).lookup "id", (fields.reverse).lookup "name",
        (fields.reverse).lookup "position", (fields.reverse).lookup "team" with
    | some (.str i), some (.str n), some (.str p), some (.str t) =>
      (jsTrim i).length > 0 && (jsTrim n).length > 0 &&
        (jsTrim p).length > 0 && (jsTrim t).length > 0
    | _, _, _, _ => false
  | _ => false

/-- `CacheManager.validatePlayer` as the fallible check it is: for a `null`
item `typeof player === 'object'` passes and the subsequent `player.id`
access throws a TypeError (carried here as the error message, which the
read path's catch will wrap); for every other value the check is pure
(`playerFieldsValid`). -/
def validatePlayer (player : Json) : Except String Bool :=
  match player with
  | .null => .error "Cannot read properties of null (reading 'id')"
  | j => .ok (playerFieldsValid j)

/-- `CacheManager.getPlayers` = `getCachedData('players.json', validatePlayer)`,
the read path behind `getCollection("players")`. -/
def getPlayers (memory : Option (List Json)) (file : CacheFile) : Except String (List Json) :=
  getCachedData memory file "players.json" validatePlayer

/-- The class of structurally broken cache files of the failure-semantics
claim: missing file, malformed JSON, or an envelope lacking a truthy
`metadata` or whose `data` is not an array. -/
def structurallyBrokenFile : CacheFile → Bool
  | .missing => true
  | .malformed => true
  | .parsed j =>
    !(optJsonTruthy (jsGetField j "metadata") &&
      (match jsGetField j "data" with
       | some (.arr _) => true
       | _ => false))

/-- `CacheManager.isCacheStale`: any read failure counts as stale; a missing
or falsy `metadata.lastUpdated` counts as stale; otherwise the cache is stale
iff `now - lastUpdated > maxAge` (`maxAge` is `config.maxAge`, `now` is
`Math.floor(Date.now() / 1000)`). -/
def isCacheStale (file : CacheFile) (now maxAge : Int) : Bool :=
  match file with
  | .missing => true
  | .malformed => true
  | .parsed j =>
    match readCacheFile j with
    | .error _ => true
    | .ok cachedData =>
      match jsGetField cachedData "metadata" with
      | some m =>
        match jsGetField m "lastUpdated" with
        | some (.num t) => if t = 0 then true else decide (now - t > maxAge)
        | _ => true
      | none => true

/-! ## Upstream client and authenticator

The implementation file `lib/mfl-api.ts` (class `MFLApiClient`) is not part
of the shipped tree; only its property tests and its callers are.  The
definitions below are modelled from the spec's record of it: the design
document `src/.kiro/specs/real-team-data-integration/design.md` carries the
implementation of `makeRequest` and `login` verbatim, and the definitions
follow that text. -/

/-- Error codes of `APIError` (src/lib/types.ts). -/
inductive ErrorCode where
  | AUTHENTICATION_FAILED : ErrorCode
  | RATE_LIMITED : ErrorCode
  | SERVER_ERROR : ErrorCode
  | NETWORK_ERROR : ErrorCode
deriving DecidableEq, Repr

/-- Modelled from the spec: `MFLAPIError` (design.md) — code, message, and an
optional `retryAfter` field. -/
structure MFLAPIError where
  code : ErrorCode
  message : String
  retryAfter : Option Nat := none
deriving DecidableEq, Repr

/-- The decoded body `makeRequest` resolves with: parsed JSON when the
content type includes `application/json`, raw text otherwise. -/
inductive MFLBody where
  | text : String → MFLBody
  | json : Json → MFLBody

/-- What a single `fetch` attempt produced: a timeout (`AbortError`), another
transport failure, or an HTTP response with status, status text, headers and
(decoded) body. -/
inductive FetchOutcome where
  | timeout : FetchOutcome
  | failure : String → FetchOutcome
  | response : Nat → String → List (String × String) → MFLBody → FetchOutcome

/-- `Response.ok` of the Fetch API: status in the inclusive range 200-299. -/
def respOk (status : Nat) : Bool :=
  200 ≤ status ∧ status ≤ 299

/-- Modelled from the spec: `MFLApiClient.makeRequest` (design.md) — response
classification.  `!response.ok && status === 429` → `RATE_LIMITED` with a
fixed message; any other non-ok status → `SERVER_ERROR` with
`HTTP ${status}: ${statusText}`; an abort → `NETWORK_ERROR` "Request
timeout"; any other fetch rejection → `NETWORK_ERROR` with the message.  The
function consumes exactly one fetch outcome: there is no retry loop. -/
def makeRequest : FetchOutcome → Except MFLAPIError MFLBody
  | .timeout => .error { code := .NETWORK_ERROR, message := "Request timeout" }
  | .failure msg => .error { code := .NETWORK_ERROR, message := "Network error: " ++ msg }
  | .response status statusText _headers body =>
    if !respOk status then
      if status = 429 then
        .error { code := .RATE_LIMITED, message := "API rate limit exceeded" }
      else
        .error { code := .SERVER_ERROR,
                 message := "HTTP " ++ toString status ++ ": " ++ statusText }
    else
      .ok body

/-- Strip a literal from the front of a character list; `none` when it does
not start with the literal. -/
def dropLit : List Char → List Char → Option (List Char)
  | [], s => some s
  | _ :: _, [] => none
  | l :: ls, c :: cs => if c = l then dropLit ls cs else none

/-- Modelled from the spec: the regex `/<error[^>]*>([^<]*)<\/error>/`
anchored at the head of the list — `[^>]*` up to the first `>` is forced, as
is the capture `[^<]*` up to the first `<`, so no backtracking arises. -/
def errMatchAt (s : List Char) : Option (List Char) :=
  match dropLit ("<error".data) s with
  | none => none
  | some r1 =>
    let attrs := r1.takeWhile (· ≠ '>')
    match r1.drop attrs.length with
    | '>' :: r2 =>
      let body := r2.takeWhile (· ≠ '<')
      match dropLit ("</error>".data) (r2.drop body.length) with
      | some _ => some body
      | none => none
    | _ => none

/-- Modelled from the spec: the regex `/<status[^>]*>([^<]*)<\/status>/`
anchored at the head of the list. -/
def statusMatchAt (s : List Char) : Option (List Char) :=
  match dropLit ("<status".data) s with
  | none => none
  | some r1 =>
    let attrs := r1.takeWhile (· ≠ '>')
    match r1.drop attrs.length with
    | '>' :: r2 =>
      let body := r2.takeWhile (· ≠ '<')
      match dropLit ("</status>".data) (r2.drop body.length) with
      | some _ => some body
      | none => none
    | _ => none

/-- After `<status` and an attribute prefix: match
`MFL_USER_ID="([^"]*)"[^>]*>OK</status>` and return the capture.  The
capture up to the first `"` and the `[^>]*` run up to the first `>` are both
forced by the following literal, so no backtracking arises here. -/
def okAttrTail (r : List Char) : Option (List Char) :=
  match dropLit ("MFL_USER_ID=\"".data) r with
  | none => none
  | some r1 =>
    let tok := r1.takeWhile (· ≠ '"')
    match r1.drop tok.length with
    | '"' :: r2 =>
      let rest := r2.takeWhile (· ≠ '>')
      match dropLit (">OK</status>".data) (r2.drop rest.length) with
      | some _ => some tok
      | none => none
    | _ => none

/-- Backtracking over the length of the leading `[^>]*` attribute run:
greedy, so the longest prefix (`k`) is tried first, shrinking to the empty
prefix. -/
def okTryAttrs (r1 : List Char) : Nat → Option (List Char)
  | 0 => okAttrTail r1
  | Nat.succ k =>
    match okAttrTail (r1.drop (Nat.succ k)) with
    | some tok => some tok
    | none => okTryAttrs r1 k

/-- Modelled from the spec: the success regex
`/<status[^>]*MFL_USER_ID="([^"]*)"[^>]*>OK<\/status>/` anchored at the head
of the list, with the greedy `[^>]*` before the attribute backtracked from
longest to shortest. -/
def okStatusMatchAt (s : List Char) : Option (List Char) :=
  match dropLit ("<status".data) s with
  | none => none
  | some r1 => okTryAttrs r1 ((r1.takeWhile (· ≠ '>')).length)

/-- `String.match`'s search for the leftmost match position: try the matcher
at every start position, earliest first. -/
def scanFor (m : List Char → Option (List Char)) : List Char → Option (List Char)
  | [] => none
  | c :: cs =>
    match m (c :: cs) with
    | some r => some r
    | none => scanFor m cs

/-- `response.match(/<status[^>]*MFL_USER_ID="([^"]*)"[^>]*>OK<\/status>/)`,
returning the captured token. -/
def findOkStatus (s : String) : Option String :=
  (scanFor okStatusMatchAt s.data).map (fun cs => String.mk cs)

/-- `response.match(/<error[^>]*>([^<]*)<\/error>/)`, returning the captured
message text. -/
def findErrorTag (s : String) : Option String :=
  (scanFor errMatchAt s.data).map (fun cs => String.mk cs)

/-- `response.match(/<status[^>]*>([^<]*)<\/status>/)`, returning the
captured status body. -/
def findStatusTag (s : String) : Option String :=
  (scanFor statusMatchAt s.data).map (fun cs => String.mk cs)

/-- `AuthResult` (src/lib/types.ts): `{success, cookie?, error?}`. -/
structure AuthResult where
  success : Bool
  cookie : Option String := none
  error : Option String := none
deriving DecidableEq, Repr

/-- Modelled from the spec: `MFLApiClient.login` (design.md).  Takes the
client's stored cookie and the single fetch outcome of the login POST, and
returns the `AuthResult` together with the new stored cookie.  A string
response is matched against the success pattern, then the error element,
then the non-OK status element; otherwise (including a JSON-decoded
response) a generic invalid-response failure results.  Every transport
failure surfaces as a failure result carrying the classified error's
message (`makeRequest` only ever throws `MFLAPIError`). -/
def login (cookieState : Option String) (outcome : FetchOutcome) :
    AuthResult × Option String :=
  match makeRequest outcome with
  | .error e => ({ success := false, error := some e.message }, cookieState)
  | .ok (.json _) => ({ success := false, error := some "Invalid response from server" }, cookieState)
  | .ok (.text response) =>
    match findOkStatus response with
    | some cookieValue =>
      ({ success := true, cookie := some cookieValue }, some cookieValue)
    | none =>
      match findErrorTag response with
      | some msg => ({ success := false, error := some msg }, cookieState)
      | none =>
        match findStatusTag response with
        | some body =>
          if body ≠ "OK" then ({ success := false, error := some body }, cookieState)
          else ({ success := false, error := some "Invalid response from server" }, cookieState)
        | none => ({ success := false, error := some "Invalid response from server" }, cookieState)

/-! ## Helper lemmas -/

theorem foldl_add_eq_sum {α : Type} (f : α → ℚ) :
    ∀ (l : List α) (init : ℚ), l.foldl (fun s p => s + f p) init = init + (l.map f).sum
  | [], init => by simp
  | a :: l, init => by
    simp only [List.foldl_cons, List.map_cons, List.sum_cons]
    rw [foldl_add_eq_sum f l (init + f a)]
    ring

theorem filter_status_partition (l : List ProcessedPlayer) :
    (l.filter isActiveP ++ l.filter isIrP ++ l.filter isTaxiP).Perm l := by
  induction l with
  | nil => simp
  | cons p l ih =>
    cases h : p.rosterStatus with
    | active =>
      rw [show (p :: l).filter isActiveP = p :: l.filter isActiveP from by
            simp [List.filter_cons, isActiveP, h],
          show (p :: l).filter isIrP = l.filter isIrP from by
            simp [List.filter_cons, isIrP, h],
          show (p :: l).filter isTaxiP = l.filter isTaxiP from by
            simp [List.filter_cons, isTaxiP, h]]
      exact ih.cons p
    | ir =>
      rw [show (p :: l).filter isActiveP = l.filter isActiveP from by
            simp [List.filter_cons, isActiveP, h],
          show (p :: l).filter isIrP = p :: l.filter isIrP from by
            simp [List.filter_cons, isIrP, h],
          show (p :: l).filter isTaxiP = l.filter isTaxiP from by
            simp [List.filter_cons, isTaxiP, h],
          show l.filter isActiveP ++ (p :: l.filter isIrP) ++ l.filter isTaxiP
              = l.filter isActiveP ++ (p :: (l.filter isIrP ++ l.filter isTaxiP)) from by
            simp [List.append_assoc]]
      exact List.perm_middle.trans (by rw [← List.append_assoc]; exact ih.cons p)
    | taxi =>
      rw [show (p :: l).filter isActiveP = l.filter isActiveP from by
            simp [List.filter_cons, isActiveP, h],
          show (p :: l).filter isIrP = l.filter isIrP from by
            simp [List.filter_cons, isIrP, h],
          show (p :: l).filter isTaxiP = p :: l.filter isTaxiP from by
            simp [List.filter_cons, isTaxiP, h]]
      exact List.perm_middle.trans (ih.cons p)

theorem playerLE_total (a b : ProcessedPlayer) : playerLE a b || playerLE b a := by
  simp only [playerLE, Bool.or_eq_true, decide_eq_true_eq]
  rcases Nat.lt_trichotomy (posRank a.position) (posRank b.position) with h | h | h
  · exact Or.inl (Or.inl h)
  · rcases le_total a.name b.name with hn | hn
    · exact Or.inl (Or.inr ⟨h, hn⟩)
    · exact Or.inr (Or.inr ⟨h.symm, hn⟩)
  · exact Or.inr (Or.inl h)

theorem playerLE_trans (a b c : ProcessedPlayer) :
    playerLE a b → playerLE b c → playerLE a c := by
  simp only [playerLE, decide_eq_true_eq]
  rintro (hab | ⟨hab, hnab⟩) (hbc | ⟨hbc, hnbc⟩)
  · exact Or.inl (hab.trans hbc)
  · exact Or.inl (hbc ▸ hab)
  · exact Or.inl (hab ▸ hbc)
  · exact Or.inr ⟨hab.trans hbc, hnab.trans hnbc⟩

theorem sortByPosition_pairwise_perm (l : List ProcessedPlayer) :
    (sortByPosition l).Pairwise (fun a b => posRank a.position < posRank b.position ∨
      (posRank a.position = posRank b.position ∧ a.name ≤ b.name)) ∧
    (sortByPosition l).Perm l := by
  constructor
  · have h := List.sorted_mergeSort playerLE_trans playerLE_total l
    exact h.imp (fun hab => of_decide_eq_true hab)
  · exact List.mergeSort_perm l playerLE

theorem validatePlayer_eq_ok (j : Json) (h : j ≠ Json.null) :
    validatePlayer j = .ok (playerFieldsValid j) := by
  cases j with
  | null => exact absurd rfl h
  | bool b => rfl
  | num n => rfl
  | str s => rfl
  | arr l => rfl
  | obj fields => rfl

theorem filterExc_eq_filter (items : List Json) (h : ∀ j ∈ items, j ≠ Json.null) :
    filterExc validatePlayer items = .ok (items.filter playerFieldsValid) := by
  induction items with
  | nil => rfl
  | cons j rest ih =>
    rw [filterExc, validatePlayer_eq_ok j (h j (List.mem_cons_self j rest)),
      ih (fun x hx => h x (List.mem_cons_of_mem j hx)), List.filter_cons]

/-! ## Claim theorems -/

/-- C1: For any raw roster list of N entries and any player directory
(including an empty one), the roster projection returns exactly N projected
players; an entry whose id has no match in the directory is kept (it appears
in the projection) and is given the sentinel fields name "Unknown Player",
position "UNK", team "FA" rather than being dropped. -/
theorem roster_projection_preserves_entries
    (raw : List RawRosterPlayer) (db : List PlayerRecord) :
    (processedPlayers raw db).length = raw.length ∧
    ∀ r ∈ raw, (∀ p ∈ db, p.id ≠ r.id) →
      processRosterPlayer db r ∈ processedPlayers raw db ∧
      (processRosterPlayer db r).name = "Unknown Player" ∧
      (processRosterPlayer db r).position = "UNK" ∧
      (processRosterPlayer db r).team = "FA" := by
  refine ⟨List.length_map _ _, fun r hr hnomatch => ?_⟩
  have hfind : db.find? (fun p => p.id = r.id) = none := by
    rw [List.find?_eq_none]
    intro p hp
    simpa using hnomatch p hp
  refine ⟨List.mem_map.mpr ⟨r, hr, rfl⟩, ?_, ?_, ?_⟩ <;>
    simp [processRosterPlayer, hfind, jsOrStr]

/-- C1 witness: a one-entry roster against an empty directory projects to one
player with the sentinel fields. -/
theorem roster_projection_preserves_entries_witness :
    (processedPlayers [(⟨"9999", none, none, none, none⟩ : RawRosterPlayer)] []).length = 1 ∧
    (processRosterPlayer [] (⟨"9999", none, none, none, none⟩ : RawRosterPlayer)).name = "Unknown Player" := by
  have h := roster_projection_preserves_entries
    [(⟨"9999", none, none, none, none⟩ : RawRosterPlayer)] []
  exact ⟨h.1, (h.2 _ (by simp) (by simp)).2.1⟩

/-- C2 counterexample: a roster whose only entry is a taxi-squad player with
salary "5" has an empty active bucket, yet the main dashboard's
`hasSalaries` (computed over all processed players) is true — so players
outside the active bucket do affect the boolean there, contradicting the
claim. -/
theorem hasSalaries_dashboard_counterexample :
    hasSalariesDashboard [(⟨"0001", some "TAXI_SQUAD", some "5", none, none⟩ : RawRosterPlayer)] [] = true ∧
    activeRoster [(⟨"0001", some "TAXI_SQUAD", some "5", none, none⟩ : RawRosterPlayer)] [] = [] ∧
    hasSalariesLeague [(⟨"0001", some "TAXI_SQUAD", some "5", none, none⟩ : RawRosterPlayer)] [] = false := by
  refine ⟨?_, rfl, rfl⟩
  simp [hasSalariesDashboard, processedPlayers, processRosterPlayer, hasSalaryData, jsNumTruthy,
    parseFloatJs, parseSign, digitsVal, jsOrStr]

/-- C2 amended: at the league page and the year-scoped dashboard,
`hasSalaries`/`hasContracts` are computed over the active bucket only (true
iff some active-bucket player carries a truthy parsed salary / a truthy
contract-year or contract-status value); at the main dashboard they are
computed over all processed players, so ir/taxi players do affect them
there. -/
theorem hasSalaries_hasContracts_scope (raw : List RawRosterPlayer) (db : List PlayerRecord) :
    (hasSalariesDashboard raw db = true ↔
      ∃ p ∈ processedPlayers raw db, jsNumTruthy p.salary = true) ∧
    (hasContractsDashboard raw db = true ↔
      ∃ p ∈ processedPlayers raw db,
        (jsNumTruthy p.contractYears || optStrTruthy p.contractStatus) = true) ∧
    (hasSalariesLeague raw db = true ↔
      ∃ p ∈ processedPlayers raw db,
        p.rosterStatus = RosterStatus.active ∧ jsNumTruthy p.salary = true) ∧
    (hasContractsLeague raw db = true ↔
      ∃ p ∈ processedPlayers raw db, p.rosterStatus = RosterStatus.active ∧
        (jsNumTruthy p.contractYears || optStrTruthy p.contractStatus) = true) := by
  refine ⟨?_, ?_, ?_, ?_⟩ <;>
    simp [hasSalariesDashboard, hasContractsDashboard, hasSalariesLeague, hasContractsLeague,
      hasSalaryData, hasContractData, activeRoster, isActiveP, List.any_eq_true,
      List.mem_filter, and_assoc, and_comm, and_left_comm]

/-- C3: every projected player appears in exactly one of the three buckets
(the buckets are status-homogeneous and together are a permutation of the
projection; raw status "TAXI_SQUAD" maps to taxi, "INJURED_RESERVE" or "IR"
to ir, anything else to active), and the salary / contract-year totals are
sums over the active bucket only — ir and taxi players never contribute to
the totals even when they carry salary or contract fields. -/
theorem roster_buckets_partition_and_totals
    (raw : List RawRosterPlayer) (db : List PlayerRecord) :
    (activeRoster raw db ++ irRoster raw db ++ taxiRoster raw db).Perm
      (processedPlayers raw db) ∧
    (∀ p ∈ processedPlayers raw db,
      (p ∈ activeRoster raw db ↔ p.rosterStatus = RosterStatus.active) ∧
      (p ∈ irRoster raw db ↔ p.rosterStatus = RosterStatus.ir) ∧
      (p ∈ taxiRoster raw db ↔ p.rosterStatus = RosterStatus.taxi)) ∧
    totalSalary raw db =
      (((processedPlayers raw db).filter isActiveP).map (fun p => jsNumOrZero p.salary)).sum ∧
    totalContractYears raw db =
      (((processedPlayers raw db).filter isActiveP).map
        (fun p => jsNumOrZero p.contractYears)).sum ∧
    (∀ r : RawRosterPlayer, (processRosterPlayer db r).rosterStatus =
      if r.status = some "TAXI_SQUAD" then RosterStatus.taxi
      else if r.status = some "INJURED_RESERVE" ∨ r.status = some "IR" then RosterStatus.ir
      else RosterStatus.active) := by
  refine ⟨filter_status_partition _, fun p hp => ?_, ?_, ?_, fun r => rfl⟩
  · refine ⟨?_, ?_, ?_⟩ <;>
      simp [activeRoster, irRoster, taxiRoster, isActiveP, isIrP, isTaxiP, List.mem_filter, hp]
  · rw [totalSalary, foldl_add_eq_sum, zero_add, sortedActiveRoster, activeRoster]
    exact ((sortByPosition_pairwise_perm _).2.map _).sum_eq
  · rw [totalContractYears, foldl_add_eq_sum, zero_add, sortedActiveRoster, activeRoster]
    exact ((sortByPosition_pairwise_perm _).2.map _).sum_eq

/-- C3 witness: in a two-entry roster (one active, one taxi-squad entry with a
salary), the taxi player sits in the taxi bucket and only the active player's
salary reaches the total. -/
theorem roster_buckets_partition_and_totals_witness :
    (processRosterPlayer [] (⟨"0002", some "TAXI_SQUAD", some "7", none, none⟩ : RawRosterPlayer))
      ∈ processedPlayers [(⟨"0002", some "TAXI_SQUAD", some "7", none, none⟩ : RawRosterPlayer)] [] ∧
    ((processRosterPlayer [] (⟨"0002", some "TAXI_SQUAD", some "7", none, none⟩ : RawRosterPlayer))
        ∈ taxiRoster [(⟨"0002", some "TAXI_SQUAD", some "7", none, none⟩ : RawRosterPlayer)] [] ↔
      (processRosterPlayer [] (⟨"0002", some "TAXI_SQUAD", some "7", none, none⟩
        : RawRosterPlayer)).rosterStatus = RosterStatus.taxi) ∧
    totalSalary [(⟨"0002", some "TAXI_SQUAD", some "7", none, none⟩ : RawRosterPlayer)] [] =
      (((processedPlayers [(⟨"0002", some "TAXI_SQUAD", some "7", none, none⟩
        : RawRosterPlayer)] []).filter isActiveP).map (fun p => jsNumOrZero p.salary)).sum := by
  have h := roster_buckets_partition_and_totals
    [(⟨"0002", some "TAXI_SQUAD", some "7", none, none⟩ : RawRosterPlayer)] []
  exact ⟨by simp [processedPlayers], (h.2.1 _ (by simp [processedPlayers])).2.2, h.2.2.1⟩

/-- C4: within each roster bucket the projected players are sorted by the
fixed position order [QB, RB, WR, TE, K, DEF] — positions not in that list
rank after all listed positions — with ties on position broken by comparing
the players' names; each sorted section is a permutation of its bucket. -/
theorem roster_sections_sorted_by_position
    (raw : List RawRosterPlayer) (db : List PlayerRecord) :
    ((sortedActiveRoster raw db).Pairwise
        (fun a b => posRank a.position < posRank b.position ∨
          (posRank a.position = posRank b.position ∧ a.name ≤ b.name)) ∧
      (sortedActiveRoster raw db).Perm (activeRoster raw db)) ∧
    ((sortedIrRoster raw db).Pairwise
        (fun a b => posRank a.position < posRank b.position ∨
          (posRank a.position = posRank b.position ∧ a.name ≤ b.name)) ∧
      (sortedIrRoster raw db).Perm (irRoster raw db)) ∧
    ((sortedTaxiRoster raw db).Pairwise
        (fun a b => posRank a.position < posRank b.position ∨
          (posRank a.position = posRank b.position ∧ a.name ≤ b.name)) ∧
      (sortedTaxiRoster raw db).Perm (taxiRoster raw db)) ∧
    (∀ pos, pos ∉ positionOrder → ∀ listed ∈ positionOrder, posRank listed < posRank pos) := by
  refine ⟨sortByPosition_pairwise_perm _, sortByPosition_pairwise_perm _,
    sortByPosition_pairwise_perm _, fun pos hpos listed hlisted => ?_⟩
  have hnone : positionOrder.findIdx? (· = pos) = none := by
    rw [List.findIdx?_eq_none_iff]
    intro x hx
    simp only [decide_eq_false_iff_not]
    intro hEq
    exact hpos (hEq ▸ hx)
  have hpos999 : posRank pos = 999 := by rw [posRank, hnone]
  have hlt : posRank listed < 6 := by
    simp only [positionOrder, List.mem_cons, List.not_mem_nil, or_false] at hlisted
    rcases hlisted with rfl | rfl | rfl | rfl | rfl | rfl <;> simp [posRank, positionOrder, List.findIdx?]
  omega

/-- C4 witness: "XX" is an unlisted position, so every listed position (here
"QB") ranks before it. -/
theorem roster_sections_sorted_by_position_witness :
    ("XX" ∉ positionOrder ∧ "QB" ∈ positionOrder) ∧ posRank "QB" < posRank "XX" :=
  ⟨by decide, (roster_sections_sorted_by_position [] []).2.2.2 "XX" (by decide) "QB" (by decide)⟩

/-- C5: for a valid players envelope (truthy metadata, array data whose
items are PlayerRecord-shaped, i.e. no `null` items — on a `null` item the
real validator throws and the whole read fails instead),
`getCollection("players")` returns exactly the subset of the data array
passing the PlayerRecord validator, preserving the original order and
dropping only the items that fail the validator. -/
theorem players_roundtrip_valid_subset (meta : Json) (items : List Json)
    (hmeta : meta.truthy = true) (hnonull : ∀ j ∈ items, j ≠ Json.null) :
    getPlayers none (CacheFile.parsed
        (Json.obj [("metadata", meta), ("data", Json.arr items)]))
      = .ok (items.filter playerFieldsValid) ∧
    (items.filter playerFieldsValid).Sublist items ∧
    (∀ j ∈ items, (j ∈ items.filter playerFieldsValid ↔ playerFieldsValid j = true)) ∧
    (∀ j ∈ items, validatePlayer j = .ok (playerFieldsValid j)) := by
  refine ⟨?_, List.filter_sublist _, fun j hj => by simp [List.mem_filter, hj],
    fun j hj => validatePlayer_eq_ok j (hnonull j hj)⟩
  have h1 : jsGetField (Json.obj [("metadata", meta), ("data", Json.arr items)]) "metadata"
      = some meta := rfl
  have h2 : jsGetField (Json.obj [("metadata", meta), ("data", Json.arr items)]) "data"
      = some (Json.arr items) := rfl
  have hcond : (optJsonTruthy (jsGetField
        (Json.obj [("metadata", meta), ("data", Json.arr items)]) "metadata") &&
      optJsonTruthy (jsGetField
        (Json.obj [("metadata", meta), ("data", Json.arr items)]) "data")) = true := by
    rw [h1, h2]
    show (meta.truthy && (Json.arr items).truthy) = true
    rw [hmeta]
    rfl
  have hrc : readCacheFile (Json.obj [("metadata", meta), ("data", Json.arr items)])
      = Except.ok (Json.obj [("metadata", meta), ("data", Json.arr items)]) := by
    simp only [readCacheFile]
    rw [if_pos hcond]
  simp only [getPlayers, getCachedData, hrc, h2, filterExc_eq_filter items hnonull]

/-- C5 witness: an envelope holding one valid player object and one junk
(non-null) item reads back as exactly the valid object. -/
theorem players_roundtrip_valid_subset_witness :
    (Json.obj [("lastUpdated", Json.num 5)]).truthy = true ∧
    (∀ j ∈ [Json.obj [("id", Json.str "0001"), ("name", Json.str "A"),
        ("position", Json.str "QB"), ("team", Json.str "FA")], Json.str "junk"],
      j ≠ Json.null) ∧
    getPlayers none (CacheFile.parsed (Json.obj
      [("metadata", Json.obj [("lastUpdated", Json.num 5)]),
       ("data", Json.arr
         [Json.obj [("id", Json.str "0001"), ("name", Json.str "A"),
            ("position", Json.str "QB"), ("team", Json.str "FA")],
          Json.str "junk"])]))
      = .ok [Json.obj [("id", Json.str "0001"), ("name", Json.str "A"),
          ("position", Json.str "QB"), ("team", Json.str "FA")]] := by
  have h := players_roundtrip_valid_subset (Json.obj [("lastUpdated", Json.num 5)])
    [Json.obj [("id", Json.str "0001"), ("name", Json.str "A"),
       ("position", Json.str "QB"), ("team", Json.str "FA")],
     Json.str "junk"] rfl (by simp)
  refine ⟨rfl, by simp, ?_⟩
  rw [h.1]
  rfl

/-- C6: a structurally broken players file — missing, malformed JSON, or an
envelope lacking truthy metadata or whose data is not an array (in
particular a file holding just an empty object) — makes the players read fail with a
cache-read error naming the collection; it never returns any (empty or
partial) item list. -/
theorem broken_players_file_read_fails (file : CacheFile)
    (h : structurallyBrokenFile file = true) :
    (∃ rest, getPlayers none file =
        .error ("Failed to load cached data from players.json: " ++ rest)) ∧
    ∀ l, getPlayers none file ≠ Except.ok l := by
  have key : ∃ rest, getPlayers none file =
      .error ("Failed to load cached data from players.json: " ++ rest) := by
    cases file with
    | missing => exact ⟨"Cache file not found: players.json", rfl⟩
    | malformed => exact ⟨"Invalid JSON in cache file", rfl⟩
    | parsed j =>
      by_cases hA : optJsonTruthy (jsGetField j "metadata") = true
      · by_cases hB : optJsonTruthy (jsGetField j "data") = true
        · have hrc : readCacheFile j = Except.ok j := by
            simp [readCacheFile, hA, hB]
          have hnotarr : (match jsGetField j "data" with
              | some (Json.arr _) => true
              | _ => false) = false := by
            simp only [structurallyBrokenFile, Bool.not_eq_true',
              Bool.and_eq_false_iff] at h
            rcases h with h | h
            · rw [hA] at h; cases h
            · exact h
          refine ⟨"Invalid cache structure in players.json: data is not an array", ?_⟩
          simp only [getPlayers, getCachedData, hrc]
          rcases hD : jsGetField j "data" with _ | d
          · rfl
          · cases d with
            | arr items => rw [hD] at hnotarr; cases hnotarr
            | null => rfl
            | bool b => rfl
            | num n => rfl
            | str s => rfl
            | obj fields => rfl
        · have hrc : readCacheFile j =
              Except.error "Invalid cache file structure: missing metadata or data" := by
            simp [readCacheFile, Bool.eq_false_iff.mpr hB]
          exact ⟨"Invalid cache file structure: missing metadata or data",
            by simp only [getPlayers, getCachedData, hrc]; rfl⟩
      · have hrc : readCacheFile j =
            Except.error "Invalid cache file structure: missing metadata or data" := by
          simp [readCacheFile, Bool.eq_false_iff.mpr hA]
        exact ⟨"Invalid cache file structure: missing metadata or data",
          by simp only [getPlayers, getCachedData, hrc]; rfl⟩
  refine ⟨key, fun l hl => ?_⟩
  rcases key with ⟨rest, hk⟩
  rw [hk] at hl
  cases hl

/-- C6 witness: the file containing just the empty object is structurally
broken and its read fails with an error naming players.json. -/
theorem broken_players_file_read_fails_witness :
    structurallyBrokenFile (CacheFile.parsed (Json.obj [])) = true ∧
    ∃ rest, getPlayers none (CacheFile.parsed (Json.obj [])) =
      .error ("Failed to load cached data from players.json: " ++ rest) :=
  ⟨rfl, (broken_players_file_read_fails (CacheFile.parsed (Json.obj [])) rfl).1⟩

/-- C7 counterexample: with `lastUpdated = 0` (a falsy value in JavaScript),
the check reports stale even for a max age far above `now - lastUpdated`,
because `!cachedData.metadata?.lastUpdated` short-circuits to stale — the
claimed threshold equivalence fails at a zero timestamp. -/
theorem staleness_zero_lastUpdated_counterexample :
    isCacheStale (CacheFile.parsed (Json.obj
      [("metadata", Json.obj [("lastUpdated", Json.num 0)]), ("data", Json.arr [])])) 10 100
      = true ∧
    (10 : Int) - 0 ≤ 100 :=
  ⟨rfl, by decide⟩

/-- C7 amended: for a fixed truthy (nonzero) `metadata.lastUpdated` timestamp
`t` and current time `now`, the staleness check is false exactly for max
ages at least `now - t` and true for every smaller max age, and is monotone
in the max-age threshold; a falsy (zero or missing) `lastUpdated` is treated
as always stale. -/
theorem staleness_threshold_monotone (d : Json) (t now maxAge maxAge2 : Int)
    (hd : d.truthy = true) (ht : t ≠ 0) :
    (isCacheStale (CacheFile.parsed (Json.obj
        [("metadata", Json.obj [("lastUpdated", Json.num t)]), ("data", d)])) now maxAge = false
      ↔ now - t ≤ maxAge) ∧
    (maxAge ≤ maxAge2 →
      isCacheStale (CacheFile.parsed (Json.obj
        [("metadata", Json.obj [("lastUpdated", Json.num t)]), ("data", d)])) now maxAge = false →
      isCacheStale (CacheFile.parsed (Json.obj
        [("metadata", Json.obj [("lastUpdated", Json.num t)]), ("data", d)])) now maxAge2 = false) := by
  have hstale : ∀ m : Int, isCacheStale (CacheFile.parsed (Json.obj
      [("metadata", Json.obj [("lastUpdated", Json.num t)]), ("data", d)])) now m
      = decide (now - t > m) := by
    intro m
    have h1 : jsGetField (Json.obj
        [("metadata", Json.obj [("lastUpdated", Json.num t)]), ("data", d)]) "metadata"
        = some (Json.obj [("lastUpdated", Json.num t)]) := rfl
    have h2 : jsGetField (Json.obj
        [("metadata", Json.obj [("lastUpdated", Json.num t)]), ("data", d)]) "data"
        = some d := rfl
    have hcond : (optJsonTruthy (jsGetField (Json.obj
          [("metadata", Json.obj [("lastUpdated", Json.num t)]), ("data", d)]) "metadata") &&
        optJsonTruthy (jsGetField (Json.obj
          [("metadata", Json.obj [("lastUpdated", Json.num t)]), ("data", d)]) "data")) = true := by
      rw [h1, h2]
      show ((Json.obj [("lastUpdated", Json.num t)]).truthy && d.truthy) = true
      rw [hd]
      rfl
    have hrc : readCacheFile (Json.obj
        [("metadata", Json.obj [("lastUpdated", Json.num t)]), ("data", d)])
        = Except.ok (Json.obj
          [("metadata", Json.obj [("lastUpdated", Json.num t)]), ("data", d)]) := by
      simp only [readCacheFile]
      rw [if_pos hcond]
    have hlast : jsGetField (Json.obj [("lastUpdated", Json.num t)]) "lastUpdated"
        = some (Json.num t) := rfl
    simp only [isCacheStale, hrc, h1, hlast]
    rw [if_neg ht]
  constructor
  · rw [hstale]
    simp only [decide_eq_false_iff_not, not_lt]
  · intro hle h1
    rw [hstale] at h1 ⊢
    simp only [decide_eq_false_iff_not, not_lt] at h1 ⊢
    omega

/-- C7 witness: with lastUpdated 100 and now 150, a max age of 50 (= now -
lastUpdated) is not stale. -/
theorem staleness_threshold_monotone_witness :
    ((Json.arr []).truthy = true ∧ (100 : Int) ≠ 0) ∧
    (isCacheStale (CacheFile.parsed (Json.obj
        [("metadata", Json.obj [("lastUpdated", Json.num 100)]), ("data", Json.arr [])])) 150 50
        = false
      ↔ (150 : Int) - 100 ≤ 50) :=
  ⟨⟨rfl, by decide⟩,
    (staleness_threshold_monotone (Json.arr []) 100 150 50 60 rfl (by decide)).1⟩

/-- Characterization of `login` on every configuration of transport outcome
and pattern-match results; shared by the authentication claims. -/
theorem login_spec_cases (st : Option String) (outcome : FetchOutcome) :
    (∀ e, makeRequest outcome = .error e →
        login st outcome = ({ success := false, error := some e.message }, st)) ∧
    (∀ j, makeRequest outcome = .ok (.json j) →
        login st outcome =
          ({ success := false, error := some "Invalid response from server" }, st)) ∧
    (∀ s, makeRequest outcome = .ok (.text s) →
      (∀ tok, findOkStatus s = some tok →
          login st outcome = ({ success := true, cookie := some tok }, some tok)) ∧
      (findOkStatus s = none → ∀ m, findErrorTag s = some m →
          login st outcome = ({ success := false, error := some m }, st)) ∧
      (findOkStatus s = none → findErrorTag s = none → ∀ b, findStatusTag s = some b →
          b ≠ "OK" → login st outcome = ({ success := false, error := some b }, st)) ∧
      (findOkStatus s = none → findErrorTag s = none → findStatusTag s = some "OK" →
          login st outcome =
            ({ success := false, error := some "Invalid response from server" }, st)) ∧
      (findOkStatus s = none → findErrorTag s = none → findStatusTag s = none →
          login st outcome =
            ({ success := false, error := some "Invalid response from server" }, st))) := by
  refine ⟨fun e he => ?_, fun j hj => ?_, fun s hs => ?_⟩
  · simp only [login, he]
  · simp only [login, hj]
  · refine ⟨fun tok htok => ?_, fun hok m hm => ?_, fun hok herr b hb hbOK => ?_,
      fun hok herr hst => ?_, fun hok herr hst => ?_⟩
    · simp only [login, hs, htok]
    · simp only [login, hs, hok, hm]
    · simp only [login, hs, hok, herr, hb]
      rw [if_pos hbOK]
    · simp only [login, hs, hok, herr, hst]
      rw [if_neg (by simp)]
    · simp only [login, hs, hok, herr, hst]

/-- C8: login always resolves to a result of the `(success, ...)` record shape
(with an error message on every failure) and never throws: transport
failures surface as failure results carrying the classified error's message,
and a textual response is tried against the three patterns in order — OK
status with token, explicit error element, non-OK status body — with a
generic invalid-response failure when none matches (including a JSON-decoded
response). -/
theorem login_always_resolves (st : Option String) (outcome : FetchOutcome) :
    ((login st outcome).1.success = true ∨
      ((login st outcome).1.success = false ∧ ∃ m, (login st outcome).1.error = some m)) ∧
    (∀ e, makeRequest outcome = .error e →
      (login st outcome).1 = { success := false, error := some e.message }) ∧
    (∀ s, makeRequest outcome = .ok (.text s) →
      ((∀ tok, findOkStatus s = some tok →
          (login st outcome).1 = { success := true, cookie := some tok }) ∧
        (findOkStatus s = none → ∀ m, findErrorTag s = some m →
          (login st outcome).1 = { success := false, error := some m }) ∧
        (findOkStatus s = none → findErrorTag s = none →
          ∀ b, findStatusTag s = some b → b ≠ "OK" →
          (login st outcome).1 = { success := false, error := some b }) ∧
        (findOkStatus s = none → findErrorTag s = none →
          (findStatusTag s = none ∨ findStatusTag s = some "OK") →
          (login st outcome).1 =
            { success := false, error := some "Invalid response from server" }))) ∧
    (∀ j, makeRequest outcome = .ok (.json j) →
      (login st outcome).1 =
        { success := false, error := some "Invalid response from server" }) := by
  obtain ⟨hTrans, hJson, hText⟩ := login_spec_cases st outcome
  refine ⟨?_, fun e he => by rw [hTrans e he], fun s hs => ?_, fun j hj => by rw [hJson j hj]⟩
  · cases hmk : makeRequest outcome with
    | error e => rw [hTrans e hmk]; exact Or.inr ⟨rfl, _, rfl⟩
    | ok b =>
      cases b with
      | json j => rw [hJson j hmk]; exact Or.inr ⟨rfl, _, rfl⟩
      | text s =>
        obtain ⟨h1, h2, h3, h4, h5⟩ := hText s hmk
        cases hok : findOkStatus s with
        | some tok => rw [h1 tok hok]; exact Or.inl rfl
        | none =>
          cases herr : findErrorTag s with
          | some m => rw [h2 hok m herr]; exact Or.inr ⟨rfl, _, rfl⟩
          | none =>
            cases hst : findStatusTag s with
            | some b2 =>
              by_cases hb : b2 = "OK"
              · subst hb; rw [h4 hok herr hst]; exact Or.inr ⟨rfl, _, rfl⟩
              · rw [h3 hok herr b2 hst hb]; exact Or.inr ⟨rfl, _, rfl⟩
            | none => rw [h5 hok herr hst]; exact Or.inr ⟨rfl, _, rfl⟩
  · obtain ⟨h1, h2, h3, h4, h5⟩ := hText s hs
    refine ⟨fun tok htok => by rw [h1 tok htok],
      fun hok m hm => by rw [h2 hok m hm],
      fun hok herr b hb hbOK => by rw [h3 hok herr b hb hbOK],
      fun hok herr hor => ?_⟩
    rcases hor with hst | hst
    · rw [h5 hok herr hst]
    · rw [h4 hok herr hst]

/-- C8 witness: the scenario login response with an explicit error element
resolves to a failure result carrying that message. -/
theorem login_always_resolves_witness :
    (login none (FetchOutcome.response 200 "OK" []
        (MFLBody.text "<error>Invalid username or password</error>"))).1 =
      { success := false, cookie := none, error := some "Invalid username or password" } := by
  have h := login_always_resolves none (FetchOutcome.response 200 "OK" []
    (MFLBody.text "<error>Invalid username or password</error>"))
  exact (h.2.2.1 _ rfl).2.1 (by decide) _ (by decide)

/-- C9 counterexample: a 429 response carrying a Retry-After header is
classified as RateLimited with `retryAfter` left empty — the header value is
not taken, contradicting the claim's "carrying a retryAfter value taken from
a response header". -/
theorem rate_limited_retry_after_counterexample :
    makeRequest (FetchOutcome.response 429 "Too Many Requests" [("Retry-After", "30")]
        (MFLBody.text "x")) =
      .error { code := .RATE_LIMITED, message := "API rate limit exceeded",
               retryAfter := none } := rfl

/-- C9 amended: HTTP 429 is classified as RateLimited (with a fixed message;
the error type's optional `retryAfter` is never populated from a response
header), any other non-2xx status as ServerError carrying the status and
reason, and a non-ok response is never turned into a success — there is no
automatic retry, the single fetch outcome is classified as is. -/
theorem response_classification (status : Nat) (statusText : String)
    (headers : List (String × String)) (body : MFLBody)
    (hnotok : respOk status = false) :
    (status = 429 →
      makeRequest (FetchOutcome.response status statusText headers body) =
        .error { code := .RATE_LIMITED, message := "API rate limit exceeded",
                 retryAfter := none }) ∧
    (status ≠ 429 →
      makeRequest (FetchOutcome.response status statusText headers body) =
        .error { code := .SERVER_ERROR,
                 message := "HTTP " ++ toString status ++ ": " ++ statusText,
                 retryAfter := none }) ∧
    (∀ b, makeRequest (FetchOutcome.response status statusText headers body) ≠
        Except.ok b) := by
  have hbase : makeRequest (FetchOutcome.response status statusText headers body) =
      (if status = 429 then
        Except.error { code := ErrorCode.RATE_LIMITED,
                       message := "API rate limit exceeded", retryAfter := none }
      else
        Except.error { code := ErrorCode.SERVER_ERROR,
                       message := "HTTP " ++ toString status ++ ": " ++ statusText,
                       retryAfter := none }) := by
    simp only [makeRequest, hnotok, Bool.not_false, if_true]
  refine ⟨fun h429 => ?_, fun hne => ?_, fun b hb => ?_⟩
  · rw [hbase, if_pos h429]
  · rw [hbase, if_neg hne]
  · rw [hbase] at hb
    by_cases h429 : status = 429
    · rw [if_pos h429] at hb; cases hb
    · rw [if_neg h429] at hb; cases hb

/-- C9 witness: a 503 response is classified as a ServerError carrying the
status and reason. -/
theorem response_classification_witness :
    respOk 503 = false ∧
    makeRequest (FetchOutcome.response 503 "Service Unavailable" [] (MFLBody.text "x")) =
      .error { code := .SERVER_ERROR, message := "HTTP 503: Service Unavailable",
               retryAfter := none } :=
  ⟨rfl, (response_classification 503 "Service Unavailable" [] (MFLBody.text "x") rfl).2.1
    (by decide)⟩

/-- C10: starting from an unset cookie, login succeeds exactly when the
transport delivered a textual response matching the OK-status pattern with
an MFL_USER_ID token; on success the extracted token is both returned and
stored as the client's cookie, and on every failure the stored cookie
remains unset — success never occurs without a token being armed. -/
theorem login_success_iff_token (outcome : FetchOutcome) :
    ((login none outcome).1.success = true ↔
      ∃ s tok, makeRequest outcome = .ok (.text s) ∧ findOkStatus s = some tok) ∧
    (∀ s tok, makeRequest outcome = .ok (.text s) → findOkStatus s = some tok →
      (login none outcome).1.cookie = some tok ∧ (login none outcome).2 = some tok) ∧
    ((login none outcome).1.success = false → (login none outcome).2 = none) := by
  obtain ⟨hTrans, hJson, hText⟩ := login_spec_cases none outcome
  have main : ((login none outcome).1.success = true →
      ∃ s tok, makeRequest outcome = .ok (.text s) ∧ findOkStatus s = some tok) ∧
      ((login none outcome).1.success = false → (login none outcome).2 = none) := by
    cases hmk : makeRequest outcome with
    | error e =>
      rw [hTrans e hmk]
      exact ⟨fun h => Bool.noConfusion h, fun _ => rfl⟩
    | ok b =>
      cases b with
      | json j =>
        rw [hJson j hmk]
        exact ⟨fun h => Bool.noConfusion h, fun _ => rfl⟩
      | text s =>
        obtain ⟨h1, h2, h3, h4, h5⟩ := hText s hmk
        cases hok : findOkStatus s with
        | some tok =>
          rw [h1 tok hok]
          exact ⟨fun _ => ⟨s, tok, rfl, hok⟩, fun h => Bool.noConfusion h⟩
        | none =>
          cases herr : findErrorTag s with
          | some m =>
            rw [h2 hok m herr]
            exact ⟨fun h => Bool.noConfusion h, fun _ => rfl⟩
          | none =>
            cases hst : findStatusTag s with
            | some b2 =>
              by_cases hb : b2 = "OK"
              · subst hb
                rw [h4 hok herr hst]
                exact ⟨fun h => Bool.noConfusion h, fun _ => rfl⟩
              · rw [h3 hok herr b2 hst hb]
                exact ⟨fun h => Bool.noConfusion h, fun _ => rfl⟩
            | none =>
              rw [h5 hok herr hst]
              exact ⟨fun h => Bool.noConfusion h, fun _ => rfl⟩
  refine ⟨⟨main.1, ?_⟩, fun s tok hs htok => ?_, main.2⟩
  · rintro ⟨s, tok, hs, htok⟩
    rw [((hText s hs).1 tok htok)]
  · rw [((hText s hs).1 tok htok)]
    exact ⟨rfl, rfl⟩

/-- C10 witness: a textual OK-status response with an MFL_USER_ID attribute
logs in and arms the extracted token as the cookie. -/
theorem login_success_iff_token_witness :
    ((login none (FetchOutcome.response 200 "OK" []
        (MFLBody.text "<status MFL_USER_ID=\"abc+/=123\">OK</status>"))).1.success = true) ∧
    (login none (FetchOutcome.response 200 "OK" []
        (MFLBody.text "<status MFL_USER_ID=\"abc+/=123\">OK</status>"))).2 =
      some "abc+/=123" := by
  have h := login_success_iff_token (FetchOutcome.response 200 "OK" []
    (MFLBody.text "<status MFL_USER_ID=\"abc+/=123\">OK</status>"))
  have htok : findOkStatus "<status MFL_USER_ID=\"abc+/=123\">OK</status>" =
      some "abc+/=123" := by decide
  exact ⟨h.1.mpr ⟨_, _, rfl, htok⟩, (h.2.1 _ _ rfl htok).2⟩
